import Mathlib

/-!
Shallow embedding of the tool-calling orchestration loop of
`skillset_scripts/test-openai.py` and of the Tansive client error taxonomy of
`test_scripts/tansive_client/exceptions.py`.  The retry client referenced by
`test_scripts/tansive_client/__init__.py` (`client.py`) is not among the
sources, so the skill-invocation retry behaviour is modelled from the
specification where noted.
-/

namespace Tansive

/-- Message roles used by the chat protocol of `test-openai.py`. -/
inductive Role
  | system
  | user
  | assistant
  | tool
deriving DecidableEq

/-- A tool call emitted by the model: `tool_call.id`, `tool_call.function.name`
and the raw `tool_call.function.arguments` string. -/
structure ToolCall where
  id : String
  name : String
  arguments : String
deriving DecidableEq

/-- A chat message as the script appends it to `messages`.  Python uses loose
dicts; the record carries the union of the fields the script ever writes:
`role`, `content`, `tool_call_id` (tool messages only) and `tool_calls`
(assistant messages only, empty otherwise). -/
structure Message where
  role : Role
  content : Option String
  tool_call_id : Option String
  tool_calls : List ToolCall
deriving DecidableEq

/-- The part of an OpenAI chat-completion response the script reads:
`choice.message.content`, `choice.message.tool_calls` and
`choice.finish_reason`. -/
structure ModelResponse where
  content : Option String
  tool_calls : List ToolCall
  finish_reason : Option String
deriving DecidableEq

/-- The system prompt `LLM_BLOCKED_BY_POLICY_PROMPT` of `test-openai.py`. -/
def LLM_BLOCKED_BY_POLICY_PROMPT : String :=
  "\nAll tools with tag [TansivePolicy: true] are governed by Tansive policy.\nIf any tool call with such tag returns an error containing \"This operation is blocked by Tansive policy\", you must respond to the user with:\n\"I tried to use Skill: <tool-name> for <reason> but it was blocked by Tansive policy. Please contact the administrator of your Tansive system to obtain access.\" Do not attempt to bypass, hallucinate, or reroute the request. Respect the policy boundaries.\n"

/-- The test question hard-coded in `main`. -/
def userQuestion : String := "What\x27s the weather like in San Francisco?"

/-- The seed conversation built in `main`: a system message holding the policy
prompt and a user message holding the question. -/
def seedMessages : List Message :=
  [ { role := Role.system, content := some LLM_BLOCKED_BY_POLICY_PROMPT,
      tool_call_id := none, tool_calls := [] },
    { role := Role.user, content := some userQuestion,
      tool_call_id := none, tool_calls := [] } ]

/-- The fixed string `json.dumps(mock_response)` the script computes for every
successfully parsed tool call: the serialization of
`\x7b"temperature": "72°F", "condition": "Sunny", "humidity": "45%"\x7d`
(with `json.dumps` escaping the non-ASCII degree sign). -/
def mockToolResponse : String :=
  "\x7b\"temperature\": \"72\\u00b0F\", \"condition\": \"Sunny\", \"humidity\": \"45%\"\x7d"

/-- Python truthiness of an optional string: `None` and the empty string are
falsy, any other string is truthy.  Used for `if finish_reason and ...`. -/
def truthyStr : Option String → Bool
  | none => false
  | some s => s != ""

/-- The assistant message appended by
`messages.append(message.model_dump(exclude_unset=True))`: the model content
together with the raw tool-call requests. -/
def assistantMessageOf (r : ModelResponse) : Message :=
  { role := Role.assistant, content := r.content,
    tool_call_id := none, tool_calls := r.tool_calls }

/-- The tool-role message appended for one tool call: the script always sends
back `mockToolResponse`, keyed by the call id. -/
def toolMessageFor (tc : ToolCall) : Message :=
  { role := Role.tool, content := some mockToolResponse,
    tool_call_id := some tc.id, tool_calls := [] }

/-- The `for tool_call in message.tool_calls` body of `main`.  `parseOk`
abstracts the success of the external `json.loads` on the arguments string
(the parsed value itself is never used by the script).  On success the
tool-role message is appended; on a parse failure the script prints the error
and calls `sys.exit(1)`, modelled by returning the messages accumulated so far
paired with `false`. -/
def processToolCalls (parseOk : String → Bool) :
    List ToolCall → List Message → List Message × Bool
  | [], msgs => (msgs, true)
  | tc :: rest, msgs =>
    if parseOk tc.arguments then
      processToolCalls parseOk rest (msgs ++ [toolMessageFor tc])
    else
      (msgs, false)

/-- Outcome of one iteration of the `while True` loop. -/
inductive StepResult
  | finalAnswer (content : Option String) (msgs : List Message)
  | stoppedNoToolCalls (msgs : List Message)
  | exited (msgs : List Message)
  | looped (msgs : List Message)
deriving DecidableEq

/-- One iteration of the `while True` loop of `main`, after the completion
response `r` arrived: break with the final answer when
`finish_reason and finish_reason != "tool_calls"`; break when
`not message.tool_calls`; otherwise append the assistant message first and
then process the tool calls in order (`exited` models `sys.exit(1)` on an
argument-parse failure). -/
def step (parseOk : String → Bool) (r : ModelResponse) (msgs : List Message) :
    StepResult :=
  if truthyStr r.finish_reason && (r.finish_reason != some "tool_calls") then
    StepResult.finalAnswer r.content msgs
  else if r.tool_calls.isEmpty then
    StepResult.stoppedNoToolCalls msgs
  else
    let pr := processToolCalls parseOk r.tool_calls (msgs ++ [assistantMessageOf r])
    if pr.snd then StepResult.looped pr.fst else StepResult.exited pr.fst

/-- True when the iteration breaks out of the `while` loop normally (final
answer or no tool calls); `exited` is a process abort, not a loop break, and
`looped` goes round again. -/
def stepBreaks : StepResult → Bool
  | StepResult.finalAnswer _ _ => true
  | StepResult.stoppedNoToolCalls _ => true
  | StepResult.exited _ => false
  | StepResult.looped _ => false

/-- Result of running the whole loop under a fuel bound.  The source loop is
`while True` with no iteration cap, so fuel is an artifact of the embedding:
`outOfFuel` means the loop was still running after the given number of
iterations. -/
inductive RunResult
  | finalAnswer (content : Option String) (msgs : List Message)
  | stoppedNoToolCalls (msgs : List Message)
  | exited (msgs : List Message)
  | outOfFuel (msgs : List Message)
deriving DecidableEq

/-- The `while True` loop of `main`, driven by a model stub
`model : List Message → ModelResponse` (each iteration issues one completion
request on the accumulated messages). -/
def runLoop (parseOk : String → Bool) (model : List Message → ModelResponse) :
    Nat → List Message → RunResult
  | 0, msgs => RunResult.outOfFuel msgs
  | Nat.succ n, msgs =>
    match step parseOk (model msgs) msgs with
    | StepResult.finalAnswer c m => RunResult.finalAnswer c m
    | StepResult.stoppedNoToolCalls m => RunResult.stoppedNoToolCalls m
    | StepResult.exited m => RunResult.exited m
    | StepResult.looped m => runLoop parseOk model n m

/-- True while the embedded loop has merely run out of fuel (the source loop
would still be iterating); false on any genuine termination of the script. -/
def stillRunning : RunResult → Bool
  | RunResult.outOfFuel _ => true
  | _ => false

/-- The tool calls the script manages to process before the first argument
whose parse fails (all of them when every argument parses). -/
def processedCalls (parseOk : String → Bool) (tcs : List ToolCall) : List ToolCall :=
  tcs.takeWhile fun tc => parseOk tc.arguments

/-- True when the iteration reaches the tool-processing stage: neither break
guard of the loop body fires. -/
def wantsTools (r : ModelResponse) : Bool :=
  !(truthyStr r.finish_reason && (r.finish_reason != some "tool_calls")) &&
    !(r.tool_calls.isEmpty)

/-! ### Concrete instances used by witnesses and counterexamples -/

/-- A valid JSON argument payload for the demo weather tool. -/
def weatherArgsSF : String := "\x7b\"location\": \"San Francisco, CA\"\x7d"

/-- A second, different valid JSON argument payload. -/
def weatherArgsNY : String := "\x7b\"location\": \"New York, NY\"\x7d"

/-- Models the observable success of the external `json.loads` at the concrete
argument strings the theorems below evaluate it on: the two demo object
literals are valid JSON and parse; every other string used below is the empty
string, which `json.loads` rejects. -/
def demoParse (s : String) : Bool :=
  s == weatherArgsSF || s == weatherArgsNY

/-- A demo tool call with valid arguments. -/
def weatherCallSF : ToolCall :=
  { id := "call_1", name := "get_weather", arguments := weatherArgsSF }

/-- A second demo tool call with different valid arguments. -/
def weatherCallNY : ToolCall :=
  { id := "call_2", name := "get_weather", arguments := weatherArgsNY }

/-- A tool call whose arguments string is empty; `json.loads("")` raises, so
the script hits its `except` branch on this call. -/
def emptyArgsCall : ToolCall :=
  { id := "call_bad", name := "get_weather", arguments := "" }

/-- Two demo tool calls with distinct valid argument payloads. -/
def demoCalls : List ToolCall := [weatherCallSF, weatherCallNY]

/-- A model stub that requests the same tool call on every turn, with finish
reason `"tool_calls"`. -/
def alwaysToolStub : List Message → ModelResponse := fun _ =>
  { content := none, tool_calls := [weatherCallSF],
    finish_reason := some "tool_calls" }

/-- A model stub whose single tool call has an unparseable arguments string. -/
def badCallStub : List Message → ModelResponse := fun _ =>
  { content := none, tool_calls := [emptyArgsCall],
    finish_reason := some "tool_calls" }

/-- A response carrying a tool call but a `None` finish reason. -/
def noFinishResp : ModelResponse :=
  { content := none, tool_calls := [weatherCallSF], finish_reason := none }

/-- A response with a tool call whose arguments fail to parse, after one that
parses. -/
def badToolResp : ModelResponse :=
  { content := none, tool_calls := [weatherCallSF, emptyArgsCall],
    finish_reason := some "tool_calls" }

/-- A final-answer response: finish reason `"stop"`, no tool calls. -/
def stopResp : ModelResponse :=
  { content := some "It is sunny.", tool_calls := [], finish_reason := some "stop" }

/-! ### Conversation-state invariant (claim C4) -/

/-- Ids of a list of tool calls, in the shape stored in `tool_call_id`. -/
def idsOf (tcs : List ToolCall) : List (Option String) :=
  tcs.map fun tc => some tc.id

/-- The assistant message closest before position `j`, scanning backwards. -/
def prevAssistant (msgs : List Message) (j : Nat) : Option Message :=
  ((msgs.take j).reverse).find? fun m => m.role == Role.assistant

/-- Causal-ordering invariant on a conversation: every tool-role message has
an assistant message strictly before it, and its `tool_call_id` is one of the
tool-call ids of the closest preceding assistant message. -/
def toolRefsOk (msgs : List Message) : Prop :=
  ∀ j m, msgs.get? j = some m → m.role = Role.tool →
    ∃ a, prevAssistant msgs j = some a ∧ m.tool_call_id ∈ idsOf a.tool_calls

/-- Conversation states the script passes through, over-approximated: the seed
state, every loop-top state reached by a full iteration, and every
mid-iteration state in which the assistant message and a prefix of the
processed tool results have been appended. -/
inductive Reachable (parseOk : String → Bool)
    (model : List Message → ModelResponse) : List Message → Prop
  | seed : Reachable parseOk model seedMessages
  | looped {msgs msgsNext : List Message} :
      Reachable parseOk model msgs →
      step parseOk (model msgs) msgs = StepResult.looped msgsNext →
      Reachable parseOk model msgsNext
  | midTools {msgs : List Message} (k : Nat) :
      Reachable parseOk model msgs →
      wantsTools (model msgs) = true →
      Reachable parseOk model
        (msgs ++ assistantMessageOf (model msgs) ::
          ((processedCalls parseOk (model msgs).tool_calls).take k).map toolMessageFor)

/-! ### Error taxonomy of `tansive_client/exceptions.py` (claim C10) -/

/-- The Python classes of `exceptions.py`, plus the built-in `Exception` they
ultimately derive from. -/
inductive PyClass
  | pyException
  | tansiveError
  | tansiveConnectionError
  | tansiveTimeoutError
  | tansiveAPIError
  | tansiveRetryError
  | tansiveValidationError
deriving DecidableEq

/-- The direct base class of each class, as declared in `exceptions.py`. -/
def pyParent : PyClass → Option PyClass
  | PyClass.pyException => none
  | PyClass.tansiveError => some PyClass.pyException
  | PyClass.tansiveConnectionError => some PyClass.tansiveError
  | PyClass.tansiveTimeoutError => some PyClass.tansiveError
  | PyClass.tansiveAPIError => some PyClass.tansiveError
  | PyClass.tansiveRetryError => some PyClass.tansiveError
  | PyClass.tansiveValidationError => some PyClass.tansiveError

/-- The class together with its ancestors, following `pyParent` for at most
`fuel` steps (the hierarchy has depth 2, so any fuel of at least 2 is exact). -/
def ancestorChain : Nat → PyClass → List PyClass
  | 0, c => [c]
  | Nat.succ n, c =>
    c :: (match pyParent c with
          | none => []
          | some p => ancestorChain n p)

/-- Python `issubclass`: reflexive-transitive closure of `pyParent`. -/
def isSubclassOf (c d : PyClass) : Bool := (ancestorChain 7 c).contains d

/-- An error of an attempt against the execution surface, classified as in the
taxonomy: connection, timeout, or API status (with the fields of
`TansiveAPIError`). -/
inductive AttemptErr
  | connectionError (message : String)
  | timeoutError (message : String)
  | apiError (message : String) (status_code : Option Int) (response_body : Option String)
deriving DecidableEq

/-- A classified SDK error, mirroring the five exception classes of
`exceptions.py`: the payload fields are exactly the attributes the Python
constructors store. -/
inductive TansiveErr
  | connectionError (message : String)
  | timeoutError (message : String)
  | apiError (message : String) (status_code : Option Int) (response_body : Option String)
  | retryError (message : String) (last_error : Option AttemptErr)
  | validationError (message : String)
deriving DecidableEq

/-- The Python class an error value is an instance of. -/
def classOf : TansiveErr → PyClass
  | TansiveErr.connectionError _ => PyClass.tansiveConnectionError
  | TansiveErr.timeoutError _ => PyClass.tansiveTimeoutError
  | TansiveErr.apiError _ _ _ => PyClass.tansiveAPIError
  | TansiveErr.retryError _ _ => PyClass.tansiveRetryError
  | TansiveErr.validationError _ => PyClass.tansiveValidationError

/-- The attribute record produced by `TansiveAPIError.__init__`. -/
structure TansiveAPIErrorData where
  message : String
  status_code : Option Int
  response_body : Option String
deriving DecidableEq

/-- Calling `TansiveAPIError(message)` with `status_code` and `response_body` left at
their declared defaults of `None`. -/
def mkTansiveAPIError (message : String) : TansiveAPIErrorData :=
  { message := message, status_code := none, response_body := none }

/-- The attribute record produced by `TansiveRetryError.__init__`. -/
structure TansiveRetryErrorData where
  message : String
  last_error : Option AttemptErr
deriving DecidableEq

/-- Calling `TansiveRetryError(message)` with `last_error` left at its declared
default of `None`. -/
def mkTansiveRetryError (message : String) : TansiveRetryErrorData :=
  { message := message, last_error := none }

/-! ### SkillInvoker, modelled from the spec (claims C6, C7, C8)

The sources contain only the exception taxonomy; the client implementation
(`tansive_client/client.py`, declaring `TansiveClient` / the skill invoker
that `__init__.py` imports) is absent, so the retry machinery below is
modelled from spec §4.2. -/

/-- Modelled from the spec: which error kinds are eligible for retry, a
subset of Connection, Timeout, and APIStatus-5xx (`client.py` is missing from
the sources). -/
structure RetryableKinds where
  connection : Bool
  timeout : Bool
  apiStatus5xx : Bool
deriving DecidableEq

/-- Modelled from the spec: the `RetryConfig` of §4.2 — `maxAttempts` counts
every attempt including the first; delays are in milliseconds (`client.py` is
missing from the sources). -/
structure RetryConfig where
  maxAttempts : Nat
  baseDelay : Nat
  backoffMultiplier : Nat
  perAttemptTimeout : Nat
  retryableKinds : RetryableKinds
deriving DecidableEq

/-- Modelled from the spec: the backoff slept after a retryable failure of
attempt `attempt` is `baseDelay * backoffMultiplier^(attempt-1)`, a pure
function of the attempt index and the configuration. -/
def backoffDelay (cfg : RetryConfig) (attempt : Nat) : Nat :=
  cfg.baseDelay * cfg.backoffMultiplier ^ (attempt - 1)

/-- Raw failure kinds an attempt against the execution surface can produce. -/
inductive FailureKind
  | connection
  | timeout
  | apiStatus
deriving DecidableEq

/-- A raw attempt failure before classification: transport kind plus the
status fields carried when the endpoint answered with an error status. -/
structure RawFailure where
  kind : FailureKind
  status_code : Option Int
  response_body : Option String
  msg : String
deriving DecidableEq

/-- Outcome of a single attempt of the underlying call. -/
inductive AttemptResult
  | ok (output : String)
  | err (f : RawFailure)
deriving DecidableEq

/-- Modelled from the spec: classification of a raw failure into the error
taxonomy of `exceptions.py`. -/
def classify (f : RawFailure) : AttemptErr :=
  match f.kind with
  | FailureKind.connection => AttemptErr.connectionError f.msg
  | FailureKind.timeout => AttemptErr.timeoutError f.msg
  | FailureKind.apiStatus => AttemptErr.apiError f.msg f.status_code f.response_body

/-- An attempt error surfaced directly to the caller, as the corresponding
SDK exception. -/
def liftAttempt : AttemptErr → TansiveErr
  | AttemptErr.connectionError m => TansiveErr.connectionError m
  | AttemptErr.timeoutError m => TansiveErr.timeoutError m
  | AttemptErr.apiError m c b => TansiveErr.apiError m c b

/-- Whether an optional status code is in the 5xx range. -/
def is5xx (c : Option Int) : Bool :=
  match c with
  | some v => decide (500 ≤ v) && decide (v < 600)
  | none => false

/-- Modelled from the spec: a failure triggers another attempt only when its
kind is in `retryableKinds`; an APIStatus failure is retryable only when its
status is 5xx (4xx client errors are never retried). -/
def isRetryable (ks : RetryableKinds) (f : RawFailure) : Bool :=
  match f.kind with
  | FailureKind.connection => ks.connection
  | FailureKind.timeout => ks.timeout
  | FailureKind.apiStatus => ks.apiStatus5xx && is5xx f.status_code

/-- Modelled from the spec: the attempt loop of the invoker.  `behavior i`
is the outcome of the `i`-th attempt (attempts are numbered from 1), `rem`
the attempts still allowed.  Returns the final outcome and the number of
attempts performed: success stops; a non-retryable failure surfaces its
classified error at once; a retryable failure on the last allowed attempt
raises `Retry` wrapping the classified cause of that last attempt; otherwise
the invoker sleeps the backoff and tries again. -/
def runAttempts (behavior : Nat → AttemptResult) (ks : RetryableKinds) :
    Nat → Nat → Except TansiveErr String × Nat
  | _, 0 => (Except.error (TansiveErr.retryError "retries exhausted" none), 0)
  | idx, Nat.succ rem =>
    match behavior idx with
    | AttemptResult.ok out => (Except.ok out, 1)
    | AttemptResult.err f =>
      if isRetryable ks f then
        if rem == 0 then
          (Except.error (TansiveErr.retryError "retries exhausted" (some (classify f))), 1)
        else
          let r := runAttempts behavior ks (idx + 1) rem
          (r.fst, r.snd + 1)
      else
        (Except.error (liftAttempt (classify f)), 1)

/-- Modelled from the spec: `invoke` validates the argument payload against
the tool schema before any network attempt — `argsValid` abstracts that
check — and raises `Validation` with zero attempts consumed when it fails;
otherwise it runs the attempt loop with `maxAttempts` total attempts.
Returns the outcome and the number of attempts performed. -/
def invoke (argsValid : Bool) (behavior : Nat → AttemptResult)
    (cfg : RetryConfig) : Except TansiveErr String × Nat :=
  if argsValid then
    runAttempts behavior cfg.retryableKinds 1 cfg.maxAttempts
  else
    (Except.error (TansiveErr.validationError "invalid skill arguments"), 0)

/-- A timeout failure used by concrete instances. -/
def timeoutFail : RawFailure :=
  { kind := FailureKind.timeout, status_code := none, response_body := none,
    msg := "deadline exceeded" }

/-- A 404 API-status failure used by concrete instances. -/
def fail404 : RawFailure :=
  { kind := FailureKind.apiStatus, status_code := some 404,
    response_body := some "not found", msg := "client error" }

/-- Retry configuration with three total attempts and only timeouts
retryable. -/
def cfg3 : RetryConfig :=
  { maxAttempts := 3, baseDelay := 100, backoffMultiplier := 2,
    perAttemptTimeout := 1000,
    retryableKinds := { connection := false, timeout := true, apiStatus5xx := false } }

/-! ### Helper lemmas -/

/-- The tool-call loop appends exactly one tool-role message per call up to
the first call whose arguments fail to parse, and succeeds exactly when every
call parses. -/
theorem processToolCalls_eq (parseOk : String → Bool) (tcs : List ToolCall) :
    ∀ msgs, processToolCalls parseOk tcs msgs =
      (msgs ++ (processedCalls parseOk tcs).map toolMessageFor,
       tcs.all fun tc => parseOk tc.arguments) := by
  induction tcs with
  | nil => intro msgs; simp [processToolCalls, processedCalls]
  | cons tc rest ih =>
    intro msgs
    by_cases h : parseOk tc.arguments
    · simp [processToolCalls, processedCalls, h, ih]
    · simp [processToolCalls, processedCalls, h]

/-- A list containing an element that fails the predicate has a strictly
shorter `takeWhile`. -/
theorem length_takeWhile_lt_of_exists_neg {α : Type} (p : α → Bool) :
    ∀ l : List α, (∃ x ∈ l, p x = false) → (l.takeWhile p).length < l.length := by
  intro l
  induction l with
  | nil => rintro ⟨x, hx, _⟩; cases hx
  | cons a t ih =>
    rintro ⟨x, hx, hpx⟩
    by_cases ha : p a
    · rcases List.mem_cons.mp hx with rfl | hxt
      · exact absurd ha (by simp [hpx])
      · simpa [List.takeWhile_cons_of_pos ha, Nat.succ_lt_succ_iff] using ih ⟨x, hxt, hpx⟩
    · simp [List.takeWhile_cons_of_neg ha]

/-- Inversion for a looped iteration: it reached the tool-processing stage,
every argument parsed, and the new state is the old one followed by the
assistant message and one tool message per call, in order. -/
theorem step_looped_shape {parseOk : String → Bool} {r : ModelResponse}
    {msgs m : List Message} (h : step parseOk r msgs = StepResult.looped m) :
    m = msgs ++ assistantMessageOf r ::
      ((processedCalls parseOk r.tool_calls).map toolMessageFor) := by
  unfold step at h
  split at h
  · exact absurd h (by simp)
  · split at h
    · exact absurd h (by simp)
    · rw [processToolCalls_eq] at h
      dsimp only at h
      split at h
      · simpa using (StepResult.looped.inj h).symm
      · exact absurd h (by simp)

/-- Appending an assistant message followed by tool messages that all refer
to its tool-call ids preserves the conversation invariant. -/
theorem toolRefsOk_append_turn {P : List Message} {A : Message} {T : List Message}
    (hP : toolRefsOk P) (hA : A.role = Role.assistant)
    (hT : ∀ m ∈ T, m.role = Role.tool ∧ m.tool_call_id ∈ idsOf A.tool_calls) :
    toolRefsOk (P ++ A :: T) := by
  intro j m hget hrole
  rw [List.get?_eq_getElem?] at hget
  rcases Nat.lt_trichotomy j P.length with hj | hj | hj
  · -- an index inside the old conversation
    rw [List.getElem?_append_left hj] at hget
    obtain ⟨a, ha, hid⟩ := hP j m (by rw [List.get?_eq_getElem?]; exact hget) hrole
    refine ⟨a, ?_, hid⟩
    unfold prevAssistant at ha ⊢
    rw [List.take_append_of_le_length (Nat.le_of_lt hj)]
    exact ha
  · -- the assistant message itself, which is not tool-role
    subst hj
    rw [List.getElem?_append_right (Nat.le_refl _), Nat.sub_self] at hget
    simp only [List.getElem?_cons_zero] at hget
    cases hget
    rw [hA] at hrole
    cases hrole
  · -- one of the freshly appended tool messages
    obtain ⟨t, rfl⟩ : ∃ t, j = P.length + 1 + t := by
      refine ⟨j - P.length - 1, ?_⟩
      omega
    have hget' : T[t]? = some m := by
      rw [List.getElem?_append_right (by omega)] at hget
      have : P.length + 1 + t - P.length = t + 1 := by omega
      rw [this] at hget
      simpa using hget
    have hmT : m ∈ T := List.getElem?_mem hget'
    obtain ⟨hroleT, hid⟩ := hT m hmT
    refine ⟨A, ?_, hid⟩
    unfold prevAssistant
    have htake : (P ++ A :: T).take (P.length + 1 + t) = P ++ A :: T.take t := by
      rw [List.take_append_eq_append_take]
      have h1 : P.length + 1 + t - P.length = t + 1 := by omega
      rw [List.take_of_length_le (by omega), h1]
      simp
    rw [htake]
    have hnone : (T.take t).reverse.find? (fun x => x.role == Role.assistant) = none := by
      rw [List.find?_eq_none]
      intro x hx
      have hxT : x ∈ T := List.mem_of_mem_take (List.mem_reverse.mp hx)
      have := (hT x hxT).1
      simp [this]
    have hfA : (A :: T.take t).reverse.find? (fun x => x.role == Role.assistant) = some A := by
      rw [List.reverse_cons, List.find?_append, hnone]
      simp [hA]
    rw [List.reverse_append, List.find?_append, hfA]
    rfl

/-- One iteration under the always-tool-calling stub goes round the loop,
growing the conversation by the assistant message and one tool result. -/
theorem step_alwaysTool (msgs : List Message) :
    step demoParse (alwaysToolStub msgs) msgs =
      StepResult.looped ((msgs ++ [assistantMessageOf (alwaysToolStub msgs)]) ++
        [toolMessageFor weatherCallSF]) := rfl

/-- Under the always-tool-calling stub the loop consumes every amount of fuel
without terminating. -/
theorem runLoop_alwaysTool :
    ∀ (n : Nat) (msgs : List Message),
      ∃ m, runLoop demoParse alwaysToolStub n msgs = RunResult.outOfFuel m := by
  intro n
  induction n with
  | zero => exact fun msgs => ⟨msgs, rfl⟩
  | succ n ih =>
    intro msgs
    obtain ⟨m, hm⟩ :=
      ih ((msgs ++ [assistantMessageOf (alwaysToolStub msgs)]) ++ [toolMessageFor weatherCallSF])
    exact ⟨m, by rw [runLoop, step_alwaysTool]; exact hm⟩

/-- When every attempt fails retryably, the attempt loop performs exactly the
allowed number of attempts and raises `Retry` wrapping the classified failure
of the last attempt. -/
theorem runAttempts_all_retryable (fails : Nat → RawFailure) (ks : RetryableKinds)
    (hall : ∀ i, isRetryable ks (fails i) = true) :
    ∀ (rem idx : Nat), 1 ≤ rem →
      runAttempts (fun i => AttemptResult.err (fails i)) ks idx rem =
        (Except.error (TansiveErr.retryError "retries exhausted"
          (some (classify (fails (idx + rem - 1))))), rem) := by
  intro rem
  induction rem with
  | zero => intro idx h; cases h
  | succ rem ih =>
    intro idx _
    rcases Nat.eq_zero_or_pos rem with hrem | hrem
    · subst hrem
      simp [runAttempts, hall idx]
    · have hne : (rem == 0) = false := by
        simpa [Nat.pos_iff_ne_zero] using hrem
      have hrec := ih (idx + 1) hrem
      simp only [runAttempts, hall idx, if_true, hne, if_false, hrec]
      have harith : idx + 1 + rem - 1 = idx + (rem + 1) - 1 := by omega
      simp [harith]

/-- The seed conversation contains no tool-role message, so the invariant
holds vacuously. -/
theorem toolRefsOk_seed : toolRefsOk seedMessages := by
  intro j m hget hrole
  rcases j with _ | _ | j
  · simp only [seedMessages, List.get?] at hget
    cases hget
    cases hrole
  · simp only [seedMessages, List.get?] at hget
    cases hget
    cases hrole
  · simp only [seedMessages, List.get?] at hget
    cases hget

/-! ### Claims -/

/-- C1 (counterexample): the claim fails as stated — for a response whose
single tool call carries an unparseable arguments string (the empty string,
which `json.loads` rejects), the loop appends zero tool-role messages for one
requested call and aborts via `sys.exit(1)` instead. -/
theorem C1_counterexample :
    processToolCalls demoParse [emptyArgsCall] [] = ([], false) ∧
    (processToolCalls demoParse [emptyArgsCall] []).fst.length ≠
      [emptyArgsCall].length := ⟨rfl, by decide⟩

/-- C1 (amended): provided every tool call in the assistant turn has an
arguments string that parses, the loop appends exactly one tool-role message
per tool call, in the order the model emitted them: the result is the old
messages followed by `toolMessageFor` mapped over the calls, and the i-th
appended message is built from the i-th call. -/
theorem C1_tool_messages_match_calls (parseOk : String → Bool)
    (msgs : List Message) (tcs : List ToolCall)
    (h : ∀ tc ∈ tcs, parseOk tc.arguments = true) :
    processToolCalls parseOk tcs msgs = (msgs ++ tcs.map toolMessageFor, true) ∧
    (tcs.map toolMessageFor).length = tcs.length ∧
    ∀ i, (tcs.map toolMessageFor).get? i = (tcs.get? i).map toolMessageFor := by
  have hall : (tcs.all fun tc => parseOk tc.arguments) = true := List.all_eq_true.mpr h
  have hproc : processedCalls parseOk tcs = tcs := by
    unfold processedCalls
    rw [List.takeWhile_eq_self_iff]
    exact h
  refine ⟨?_, List.length_map _ _, fun i => ?_⟩
  · rw [processToolCalls_eq, hproc, hall]
  · simp

/-- C1 (witness): two tool calls with valid argument payloads produce exactly
two tool-role messages, in order. -/
theorem C1_witness :
    processToolCalls demoParse demoCalls [] = ([] ++ demoCalls.map toolMessageFor, true) ∧
    (demoCalls.map toolMessageFor).length = demoCalls.length ∧
    ∀ i, (demoCalls.map toolMessageFor).get? i = (demoCalls.get? i).map toolMessageFor :=
  C1_tool_messages_match_calls demoParse [] demoCalls (by decide)

/-- C2 (counterexample): the claim fails as stated — a single tool call whose
arguments fail to parse makes the whole run exit (`sys.exit(1)`), and no
tool-role message, in particular no error payload, is appended for it. -/
theorem C2_counterexample :
    runLoop demoParse badCallStub 5 seedMessages =
      RunResult.exited (seedMessages ++ [assistantMessageOf (badCallStub seedMessages)]) ∧
    (seedMessages ++ [assistantMessageOf (badCallStub seedMessages)]).filter
      (fun m => m.role == Role.tool) = [] := ⟨rfl, rfl⟩

/-- C2 (amended): a tool call whose arguments fail to parse aborts the whole
conversation loop via `sys.exit(1)` (the `exited` outcome): the calls before
the failing one contribute their tool messages, the failing call contributes
none, and strictly fewer tool messages than tool calls are appended. -/
theorem C2_parse_failure_exits (parseOk : String → Bool) (r : ModelResponse)
    (msgs : List Message)
    (h1 : (truthyStr r.finish_reason && (r.finish_reason != some "tool_calls")) = false)
    (h2 : r.tool_calls.isEmpty = false)
    (h3 : ∃ tc ∈ r.tool_calls, parseOk tc.arguments = false) :
    step parseOk r msgs = StepResult.exited
      (msgs ++ assistantMessageOf r ::
        (processedCalls parseOk r.tool_calls).map toolMessageFor) ∧
    (processedCalls parseOk r.tool_calls).length < r.tool_calls.length := by
  have hall : (r.tool_calls.all fun tc => parseOk tc.arguments) = false := by
    obtain ⟨tc, htc, hp⟩ := h3
    exact List.all_eq_false.mpr ⟨tc, htc, by simp [hp]⟩
  constructor
  · unfold step
    rw [h1, if_neg (by simp), h2, if_neg (by simp), processToolCalls_eq]
    dsimp only
    rw [hall]
    simp
  · show (r.tool_calls.takeWhile fun tc => parseOk tc.arguments).length < r.tool_calls.length
    exact length_takeWhile_lt_of_exists_neg _ _ h3

/-- C2 (witness): a turn with one good and one unparseable tool call exits,
appending only the tool message of the good call. -/
theorem C2_witness :
    step demoParse badToolResp seedMessages = StepResult.exited
      (seedMessages ++ assistantMessageOf badToolResp ::
        (processedCalls demoParse badToolResp.tool_calls).map toolMessageFor) ∧
    (processedCalls demoParse badToolResp.tool_calls).length <
      badToolResp.tool_calls.length :=
  C2_parse_failure_exits demoParse badToolResp seedMessages (by decide) (by decide)
    ⟨emptyArgsCall, by decide, by decide⟩

/-- C3 (counterexample): the claim fails as stated — the source loop is
`while True` with no iteration cap and no MaxTurnsExceeded condition exists
anywhere in it, so under a model stub that always requests the same tool call
the run never terminates: no amount of fuel sees it stop. -/
theorem C3_counterexample :
    ¬ ∃ fuel, stillRunning (runLoop demoParse alwaysToolStub fuel seedMessages) = false := by
  rintro ⟨fuel, hfuel⟩
  obtain ⟨m, hm⟩ := runLoop_alwaysTool fuel seedMessages
  rw [hm] at hfuel
  exact absurd hfuel (by simp [stillRunning])

/-- C3 (amended): the loop has no maximum iteration count: with a model stub
that always requests the same tool call, it iterates unboundedly — for every
fuel bound and every starting conversation it is still running when the fuel
runs out, and never produces any terminating outcome (there is no
MaxTurnsExceeded condition in the code). -/
theorem C3_no_iteration_cap :
    ∀ (fuel : Nat) (msgs : List Message),
      ∃ m, runLoop demoParse alwaysToolStub fuel msgs = RunResult.outOfFuel m :=
  runLoop_alwaysTool

/-- C4: in every reachable conversation state — the seed, each loop-top state,
and each mid-iteration state where the assistant message and a prefix of its
tool results have been appended — the `tool_call_id` of every tool-role
message is one of the tool-call ids of the closest preceding assistant message; in
particular the assistant message carrying the requests sits in the list
before all of its tool-result messages. -/
theorem C4_conversation_invariant (parseOk : String → Bool)
    (model : List Message → ModelResponse) (msgs : List Message)
    (h : Reachable parseOk model msgs) : toolRefsOk msgs := by
  induction h with
  | seed => exact toolRefsOk_seed
  | looped hr hstep ih =>
    rw [step_looped_shape hstep]
    apply toolRefsOk_append_turn ih rfl
    intro m hm
    obtain ⟨tc, htc, rfl⟩ := List.mem_map.mp hm
    have htc1 : tc ∈ (processedCalls parseOk (model _).tool_calls) := htc
    have htc2 : tc ∈ (model _).tool_calls := (List.takeWhile_sublist _).mem htc1
    exact ⟨rfl, List.mem_map.mpr ⟨tc, htc2, rfl⟩⟩
  | midTools k hr hw ih =>
    apply toolRefsOk_append_turn ih rfl
    intro m hm
    obtain ⟨tc, htc, rfl⟩ := List.mem_map.mp hm
    have htc1 : tc ∈ processedCalls parseOk (model _).tool_calls :=
      List.mem_of_mem_take htc
    have htc2 : tc ∈ (model _).tool_calls := (List.takeWhile_sublist _).mem htc1
    exact ⟨rfl, List.mem_map.mpr ⟨tc, htc2, rfl⟩⟩

/-- C4 (witness): the invariant holds at the seed state. -/
theorem C4_witness : toolRefsOk seedMessages :=
  C4_conversation_invariant demoParse alwaysToolStub seedMessages Reachable.seed

/-- C5 (counterexample): the claim fails as stated — a response whose finish
reason is `None` (hence not the tool-calls indicator) but that carries a tool
call does not terminate the loop: the `if finish_reason and ...` truthiness
guard skips the break and the loop executes the call and iterates again. -/
theorem C5_counterexample :
    noFinishResp.finish_reason ≠ some "tool_calls" ∧
    stepBreaks (step demoParse noFinishResp seedMessages) = false ∧
    step demoParse noFinishResp seedMessages = StepResult.looped
      (seedMessages ++ [assistantMessageOf noFinishResp, toolMessageFor weatherCallSF]) :=
  ⟨by decide, rfl, rfl⟩

/-- C5 (amended): provided the arguments of every tool call parse, the loop breaks
exactly when the finish reason is truthy (present and non-empty) and differs
from "tool_calls", or when no tool calls are present; otherwise it executes
the tool calls and goes round again (the `looped` outcome). -/
theorem C5_break_condition (parseOk : String → Bool) (r : ModelResponse)
    (msgs : List Message)
    (hp : ∀ tc ∈ r.tool_calls, parseOk tc.arguments = true) :
    (stepBreaks (step parseOk r msgs) = true ↔
      ((truthyStr r.finish_reason = true ∧ r.finish_reason ≠ some "tool_calls") ∨
        r.tool_calls = [])) ∧
    (stepBreaks (step parseOk r msgs) = false →
      ∃ m, step parseOk r msgs = StepResult.looped m) := by
  have hall : (r.tool_calls.all fun tc => parseOk tc.arguments) = true :=
    List.all_eq_true.mpr hp
  unfold step
  by_cases h1 : (truthyStr r.finish_reason && (r.finish_reason != some "tool_calls")) = true
  · rw [if_pos h1]
    obtain ⟨ha, hb⟩ := Bool.and_eq_true_iff.mp h1
    refine ⟨?_, fun hc => by cases hc⟩
    exact iff_of_true rfl (Or.inl ⟨ha, by simpa using hb⟩)
  · rw [if_neg h1]
    by_cases h2 : r.tool_calls.isEmpty = true
    · rw [if_pos h2]
      refine ⟨?_, fun hc => by cases hc⟩
      exact iff_of_true rfl (Or.inr (List.isEmpty_iff.mp h2))
    · rw [if_neg h2, processToolCalls_eq]
      dsimp only
      rw [hall, if_pos rfl]
      refine ⟨?_, fun _ => ⟨_, rfl⟩⟩
      refine iff_of_false (by simp [stepBreaks]) ?_
      rintro (⟨ha, hb⟩ | hnil)
      · exact h1 (by simp [ha, bne_iff_ne, hb])
      · exact h2 (by simp [hnil])

/-- C5 (witness): a final-answer response (finish reason "stop", no tool
calls) breaks the loop, in agreement with the amended condition. -/
theorem C5_witness :
    (stepBreaks (step demoParse stopResp seedMessages) = true ↔
      ((truthyStr stopResp.finish_reason = true ∧
        stopResp.finish_reason ≠ some "tool_calls") ∨ stopResp.tool_calls = [])) ∧
    (stepBreaks (step demoParse stopResp seedMessages) = false →
      ∃ m, step demoParse stopResp seedMessages = StepResult.looped m) :=
  C5_break_condition demoParse stopResp seedMessages (by decide)

/-- C6: an invocation whose argument payload fails validation raises the
`Validation` error before any network attempt: zero attempts are performed
regardless of the retry configuration and of how the tool would have behaved
(the single call to `invoke` is the one invocation attempt).
Spec-modelled: the client implementation is absent from the sources. -/
theorem C6_validation_zero_attempts (behavior : Nat → AttemptResult) (cfg : RetryConfig) :
    invoke false behavior cfg =
      (Except.error (TansiveErr.validationError "invalid skill arguments"), 0) := rfl

/-- C7: when every attempt fails with a retryable error, the invoker performs
exactly `maxAttempts` attempts and raises `Retry` wrapping the classified
cause of the last attempt.  Spec-modelled: the client implementation is
absent from the sources. -/
theorem C7_retry_exhaustion (fails : Nat → RawFailure) (cfg : RetryConfig)
    (hmax : 1 ≤ cfg.maxAttempts)
    (hall : ∀ i, isRetryable cfg.retryableKinds (fails i) = true) :
    invoke true (fun i => AttemptResult.err (fails i)) cfg =
      (Except.error (TansiveErr.retryError "retries exhausted"
        (some (classify (fails cfg.maxAttempts)))), cfg.maxAttempts) := by
  have h := runAttempts_all_retryable fails cfg.retryableKinds hall cfg.maxAttempts 1 hmax
  have harith : 1 + cfg.maxAttempts - 1 = cfg.maxAttempts := by omega
  rw [harith] at h
  simpa [invoke] using h

/-- C7 (witness): with `maxAttempts = 3` and only timeouts retryable, a tool
that always times out yields exactly 3 attempts and a `Retry` error wrapping
the last timeout. -/
theorem C7_witness :
    invoke true (fun _ => AttemptResult.err timeoutFail) cfg3 =
      (Except.error (TansiveErr.retryError "retries exhausted"
        (some (AttemptErr.timeoutError "deadline exceeded"))), 3) :=
  C7_retry_exhaustion (fun _ => timeoutFail) cfg3 (by decide) (fun _ => rfl)

/-- C8: a first attempt failing with an APIStatus error whose status code is
4xx is never retried: the invoker performs exactly one attempt and surfaces
the APIStatus error with the original status code (and body) preserved,
whatever the retry configuration allows.  Spec-modelled: the client
implementation is absent from the sources. -/
theorem C8_4xx_single_attempt (behavior : Nat → AttemptResult) (cfg : RetryConfig)
    (f : RawFailure) (c : Int)
    (hmax : 1 ≤ cfg.maxAttempts)
    (hb : behavior 1 = AttemptResult.err f)
    (hk : f.kind = FailureKind.apiStatus)
    (hc : f.status_code = some c)
    (h4a : 400 ≤ c) (h4b : c < 500) :
    invoke true behavior cfg =
      (Except.error (TansiveErr.apiError f.msg (some c) f.response_body), 1) := by
  obtain ⟨rem, hrem⟩ : ∃ rem, cfg.maxAttempts = rem + 1 := ⟨cfg.maxAttempts - 1, by omega⟩
  have hnot5 : ¬ (500 ≤ c) := by omega
  have hnr : isRetryable cfg.retryableKinds f = false := by
    unfold isRetryable
    rw [hk]
    have h5 : is5xx f.status_code = false := by
      rw [hc]
      unfold is5xx
      simp [hnot5]
    simp [h5]
  have hcl : classify f = AttemptErr.apiError f.msg (some c) f.response_body := by
    unfold classify
    rw [hk, hc]
  show runAttempts behavior cfg.retryableKinds 1 cfg.maxAttempts = _
  rw [hrem]
  simp only [runAttempts, hb, hnr, hcl]
  rfl

/-- C8 (witness): a 404 on the first attempt yields exactly one attempt and
surfaces the APIStatus error with status code 404 and the original body. -/
theorem C8_witness :
    invoke true (fun _ => AttemptResult.err fail404) cfg3 =
      (Except.error (TansiveErr.apiError "client error" (some 404) (some "not found")), 1) :=
  C8_4xx_single_attempt (fun _ => AttemptResult.err fail404) cfg3 fail404 404
    (by decide) rfl rfl rfl (by decide) (by decide)

/-- C9: for a tool call whose arguments parse, the appended tool-role message
always carries the fixed serialized mock payload, independent of the tool
name and of the argument values: any two such calls produce identical content. -/
theorem C9_constant_tool_output (parseOk : String → Bool) (tc tc2 : ToolCall)
    (msgs : List Message)
    (h : parseOk tc.arguments = true) (_htwo : parseOk tc2.arguments = true) :
    processToolCalls parseOk [tc] msgs = (msgs ++ [toolMessageFor tc], true) ∧
    (toolMessageFor tc).content = some mockToolResponse ∧
    (toolMessageFor tc).content = (toolMessageFor tc2).content := by
  refine ⟨?_, rfl, rfl⟩
  simp [processToolCalls, h]

/-- C9 (witness): two calls with different valid argument payloads append
tool messages with identical, fixed content. -/
theorem C9_witness :
    processToolCalls demoParse [weatherCallSF] [] =
      ([] ++ [toolMessageFor weatherCallSF], true) ∧
    (toolMessageFor weatherCallSF).content = some mockToolResponse ∧
    (toolMessageFor weatherCallSF).content = (toolMessageFor weatherCallNY).content :=
  C9_constant_tool_output demoParse weatherCallSF weatherCallNY [] (by decide) (by decide)

/-- C10: all five SDK error classes are subclasses of the single base
`TansiveError` — so a handler catching `TansiveError` catches every
classified SDK error — and the `status_code` and `response_body` fields of
`TansiveAPIError` and the `last_error` field of `TansiveRetryError` default
to `None` when not supplied. -/
theorem C10_error_hierarchy :
    isSubclassOf PyClass.tansiveConnectionError PyClass.tansiveError = true ∧
    isSubclassOf PyClass.tansiveTimeoutError PyClass.tansiveError = true ∧
    isSubclassOf PyClass.tansiveAPIError PyClass.tansiveError = true ∧
    isSubclassOf PyClass.tansiveRetryError PyClass.tansiveError = true ∧
    isSubclassOf PyClass.tansiveValidationError PyClass.tansiveError = true ∧
    (∀ e : TansiveErr, isSubclassOf (classOf e) PyClass.tansiveError = true) ∧
    (∀ m, (mkTansiveAPIError m).status_code = none ∧
      (mkTansiveAPIError m).response_body = none) ∧
    (∀ m, (mkTansiveRetryError m).last_error = none) := by
  refine ⟨rfl, rfl, rfl, rfl, rfl, fun e => ?_, fun m => ⟨rfl, rfl⟩, fun m => rfl⟩
  cases e <;> rfl

end Tansive
